import Mathlib

/-!
Verification of the session workflow engine of `src/bot.py` (a Telegram
YouTube-download bot) against its natural-language specification.

The embedding below translates the handler functions of `src/bot.py`
(`start`, `receive_url`, `select_video`, `download_video`, `download_audio`,
`cancel`) and the dispatch table built in `main` into pure Lean functions.
External effects (the pytube provider, the filesystem, ffmpeg, the Telegram
transport) are modelled by explicit inputs: an `Oracle` record fixes the
outcome of each external call, the scratch filesystem is a list of paths
threaded through each handler, and every side effect is recorded in an
event trace.  Python exceptions raised by external calls are modelled by
the corresponding oracle field selecting the `except` branch of the
handler, exactly where the `try` block of the source would jump.
-/

/-- Conversation states of `bot.py`: `URL, FORMAT, RESOLUTION = range(3)`,
plus `ConversationHandler.END` (returned by `cancel`), the state in which no
conversation is active and only the `/start` entry point is handled. -/
inductive ConvState where
  | URL
  | FORMAT
  | RESOLUTION
  | END
deriving DecidableEq, Repr

/-- One pytube stream object, with the attributes `bot.py` reads:
`resolution` (`None` for audio-only streams), `fps`, `filesize` (bytes),
whether the stream is progressive, its container subtype (file extension),
and whether it is audio-only. -/
structure PyStream where
  resolution : Option String
  fps : Nat
  filesize : Nat
  progressive : Bool
  subtype : String
  onlyAudio : Bool
deriving DecidableEq, Repr

/-- The `YouTube(url)` object stored in `context.user_data['video']`:
its title and its list of streams in provider-declared (catalog) order. -/
structure YT where
  title : String
  streams : List PyStream
deriving DecidableEq, Repr

/-- The per-user `context.user_data` dict: key `'video'` (set by
`receive_url`) and key `'streams'` (set by `select_video`). -/
structure UserData where
  video : Option YT
  streams : Option (List PyStream)
deriving DecidableEq, Repr

/-- Reply templates sent via `update.message.reply_text` in `bot.py`,
one constructor per textual template; data interpolated into the template
is carried as arguments. -/
inductive Reply where
  | welcome
  | gotVideo (title : String)
  | invalidUrl
  | noVideoSelected
  | noStreams
  | resolutionListing (catalog : List PyStream)
  | errorFetchingStreams
  | noVideoOrStreams
  | invalidResolutionCommand
  | noStreamFound (res : String)
  | sizeExceededVideo (filesize : Nat)
  | downloadedSending (res : String)
  | doneReply
  | errorDownloading
  | noAudioStream
  | sizeExceededAudio (filesize : Nat)
  | errorProcessingAudio
  | cancelled
deriving DecidableEq, Repr

/-- Side effects on external resources, recorded in order of occurrence:
a `stream.download` call creating a path, an ffmpeg transcode run, an
attempted Telegram send of a file, and `os.remove` calls (successful or
raising `FileNotFoundError`). -/
inductive Event where
  | download (path : String)
  | transcode (src dst : String)
  | send (path : String)
  | removed (path : String)
  | removeFailed (path : String)
deriving DecidableEq, Repr

/-- Result of running one handler: the replies sent (in order), the state
returned to the `ConversationHandler`, the resulting `user_data`, the
resulting scratch filesystem, and the trace of external side effects. -/
structure HandlerResult where
  replies : List Reply
  next : ConvState
  ud : UserData
  disk : List String
  trace : List Event
deriving DecidableEq, Repr

/-- Outcomes of the external calls a single inbound update can trigger:
`resolve` is the result of `YouTube(url)` (`none` = the constructor raised),
`listOk` is whether enumerating `yt.streams` succeeds, `vDownload` /
`aDownload` give the path created by `stream.download` (`none` = it raised),
`aTranscode` is whether the ffmpeg run succeeds, and `vDeliver` / `aDeliver`
are whether `reply_video` / `reply_audio` succeed. -/
structure Oracle where
  resolve : Option YT
  listOk : Bool
  vDownload : Option String
  vDeliver : Bool
  aDownload : Option String
  aTranscode : Bool
  aDeliver : Bool
deriving DecidableEq, Repr

/-- The filesystem model of `os.remove p`: if `p` is on disk it is removed
(set subtraction), otherwise `FileNotFoundError` is raised, modelled by
`Except.error`. -/
def osRemove (disk : List String) (p : String) : Except Unit (List String) :=
  if p ∈ disk then Except.ok (disk.filter (fun q => q ≠ p)) else Except.error ()

/-- The size test of `bot.py` lines 88-89 and 131-132:
`size_mb = stream.filesize / (1024 * 1024); if size_mb > 50`.  Python `/` is
exact true division here (division of an integer by the power of two
`1024 * 1024` is exact in binary floating point), so the comparison is
modelled exactly over `ℚ`.  Returns `true` when the stream is rejected. -/
def sizeGateRejects (filesize : Nat) : Bool :=
  decide (((filesize : ℚ) / (1024 * 1024)) > 50)

/-- The digit-collecting integer key pytube's `StreamQuery.order_by` builds
for a string attribute: `int("".join(filter(str.isdigit, value)))`; `none`
models the `ValueError` raised when the value contains no digit. -/
def digitsVal (s : String) : Option Nat :=
  let ds := s.data.filter (fun c => c.isDigit)
  if ds = [] then none
  else some (ds.foldl (fun acc c => acc * 10 + (c.toNat - 48)) 0)

/-- The resolution label of a stream, `""` when absent (only applied to
streams whose `resolution` is present). -/
def resStr (s : PyStream) : String :=
  s.resolution.getD ""

/-- Numeric sort key of a stream: the digits of its resolution label. -/
def numKey (s : PyStream) : Nat :=
  (digitsVal (resStr s)).getD 0

/-- Comparison used for the numeric branch of `order_by('resolution')`:
stable ascending order by `numKey`. -/
def numLe (a b : PyStream) : Prop :=
  numKey a ≤ numKey b

instance : DecidableRel numLe := fun _ _ => Nat.decLe _ _

instance : IsTotal PyStream numLe := ⟨fun a b => Nat.le_total (numKey a) (numKey b)⟩

instance : IsTrans PyStream numLe := ⟨fun _ _ _ h h' => Nat.le_trans h h'⟩

/-- Comparison used for the fallback branch of `order_by('resolution')`
(when some label contains no digit and `int` raises `ValueError`): stable
ascending lexicographic order on the label strings. -/
def strLe (a b : PyStream) : Prop :=
  resStr a < resStr b ∨ resStr a = resStr b

instance : DecidableRel strLe := fun _ _ => instDecidableOr

/-- The stream ordering of `bot.py` line 44,
`.order_by('resolution').desc()`, following pytube's `StreamQuery`:
`order_by` keeps the streams whose `resolution` attribute is not `None`,
stably sorts them ascending by the integer built from the digits of the
label (falling back to plain string order if any label has no digits), and
`desc()` reverses the resulting list.  Python's `sorted` is stable, modelled
by the stable `List.insertionSort`. -/
def orderByResolutionDesc (l : List PyStream) : List PyStream :=
  let has := l.filter (fun s => s.resolution.isSome)
  if has.all (fun s => (digitsVal (resStr s)).isSome) then
    (List.insertionSort numLe has).reverse
  else
    (List.insertionSort strLe has).reverse

/-- The progressive-MP4 filter of `bot.py` line 44:
`yt.streams.filter(progressive=True, file_extension='mp4')`. -/
def progressiveMp4 (l : List PyStream) : List PyStream :=
  l.filter (fun s => s.progressive && s.subtype == "mp4")

/-- The resolution-tag parse of `bot.py` line 75:
`command.split('_')[-1] if '_' in command else None`.  For a string that
contains the separator, the last element of Python's `split` is exactly the
suffix after the final separator, embedded directly as
reverse-takeWhile-reverse. -/
def resolutionOfCommand (command : String) : Option String :=
  if command.data.contains '_' then
    some (String.mk ((command.data.reverse.takeWhile (fun c => c ≠ '_')).reverse))
  else none

/-- Python `str.replace` (all non-overlapping occurrences, left to right),
on character lists, with explicit fuel; `pythonReplace` instantiates the
fuel so that it never runs out.  Faithful for non-empty patterns (the one
use site has pattern `".mp4"`). -/
def replaceAux (pat rep : List Char) : Nat → List Char → List Char
  | 0, s => s
  | _ + 1, [] => []
  | fuel + 1, c :: rest =>
    if pat ≠ [] ∧ pat.isPrefixOf (c :: rest) then
      rep ++ replaceAux pat rep fuel ((c :: rest).drop pat.length)
    else
      c :: replaceAux pat rep fuel rest

/-- The `file_path.replace('.mp4', '.mp3')` of `bot.py` line 128: Python
`str.replace` replaces every occurrence of the pattern. -/
def pythonReplace (s pat rep : String) : String :=
  String.mk (replaceAux pat.data rep.data s.data.length s.data)

/-- Handler `start` (`bot.py` lines 15-19): welcome reply, state `URL`.
It does not touch `user_data`. -/
def start (ud : UserData) (disk : List String) : HandlerResult :=
  ⟨[Reply.welcome], ConvState.URL, ud, disk, []⟩

/-- Handler `receive_url` (`bot.py` lines 22-33): `YouTube(url)` succeeding
(oracle) stores the object under `'video'` and moves to `FORMAT`; an
exception replies with the error and stays in `URL`. -/
def receive_url (ud : UserData) (o : Oracle) (disk : List String) : HandlerResult :=
  match o.resolve with
  | some yt => ⟨[Reply.gotVideo yt.title], ConvState.FORMAT, { ud with video := some yt }, disk, []⟩
  | none => ⟨[Reply.invalidUrl], ConvState.URL, ud, disk, []⟩

/-- Handler `select_video` (`bot.py` lines 36-63): guard on `'video'`,
enumerate and order the progressive MP4 streams, store them under
`'streams'` and move to `RESOLUTION`; an empty catalog or a provider
exception replies and returns `URL`.  The provider exception is modelled at
the `yt.streams` access (line 44), before `user_data` is written. -/
def select_video (ud : UserData) (o : Oracle) (disk : List String) : HandlerResult :=
  match ud.video with
  | none => ⟨[Reply.noVideoSelected], ConvState.URL, ud, disk, []⟩
  | some yt =>
    if o.listOk = false then
      ⟨[Reply.errorFetchingStreams], ConvState.URL, ud, disk, []⟩
    else
      let catalog := orderByResolutionDesc (progressiveMp4 yt.streams)
      if catalog = [] then
        ⟨[Reply.noStreams], ConvState.URL, ud, disk, []⟩
      else
        ⟨[Reply.resolutionListing catalog], ConvState.RESOLUTION,
          { ud with streams := some catalog }, disk, []⟩

/-- Handler `download_video` (`bot.py` lines 66-110).  The guard
`if not yt or not streams` treats a missing and an empty stream list alike
(an empty pytube `StreamQuery` is falsy).  Inside the `try`: find the
stream whose `resolution` equals the parsed tag, apply the size test,
download (oracle), send (oracle), then `os.remove` and reply done; any
exception after the parse lands in the `except` branch, which replies with
the download error and returns `RESOLUTION`. -/
def download_video (ud : UserData) (command : String) (o : Oracle)
    (disk : List String) : HandlerResult :=
  match ud.video, ud.streams with
  | some _, some ss =>
    if ss = [] then
      ⟨[Reply.noVideoOrStreams], ConvState.URL, ud, disk, []⟩
    else
      match resolutionOfCommand command with
      | none => ⟨[Reply.invalidResolutionCommand], ConvState.RESOLUTION, ud, disk, []⟩
      | some res =>
        if res = "" then
          ⟨[Reply.invalidResolutionCommand], ConvState.RESOLUTION, ud, disk, []⟩
        else
          match ss.find? (fun s => s.resolution == some res) with
          | none => ⟨[Reply.noStreamFound res], ConvState.RESOLUTION, ud, disk, []⟩
          | some s =>
            if sizeGateRejects s.filesize then
              ⟨[Reply.sizeExceededVideo s.filesize], ConvState.RESOLUTION, ud, disk, []⟩
            else
              match o.vDownload with
              | none => ⟨[Reply.errorDownloading], ConvState.RESOLUTION, ud, disk, []⟩
              | some p =>
                let disk1 := disk.insert p
                if o.vDeliver = false then
                  ⟨[Reply.downloadedSending res, Reply.errorDownloading],
                    ConvState.RESOLUTION, ud, disk1, [Event.download p, Event.send p]⟩
                else
                  match osRemove disk1 p with
                  | Except.ok disk2 =>
                    ⟨[Reply.downloadedSending res, Reply.doneReply], ConvState.URL,
                      ud, disk2, [Event.download p, Event.send p, Event.removed p]⟩
                  | Except.error _ =>
                    ⟨[Reply.downloadedSending res, Reply.errorDownloading],
                      ConvState.RESOLUTION, ud, disk1,
                      [Event.download p, Event.send p, Event.removeFailed p]⟩
  | _, _ => ⟨[Reply.noVideoOrStreams], ConvState.URL, ud, disk, []⟩

/-- Handler `download_audio` (`bot.py` lines 113-154).  Guard on `'video'`;
inside the `try`: pick the first audio-only stream, download it (oracle),
compute `mp3_path` by replacing `'.mp4'` with `'.mp3'`, apply the size test
to the declared `stream.filesize` (after the download), transcode (oracle),
send (oracle), then remove the raw file and the mp3 file; any exception
lands in the `except` branch, which replies with the audio error and
returns `URL`. -/
def download_audio (ud : UserData) (o : Oracle) (disk : List String) : HandlerResult :=
  match ud.video with
  | none => ⟨[Reply.noVideoSelected], ConvState.URL, ud, disk, []⟩
  | some yt =>
    match yt.streams.find? (fun s => s.onlyAudio) with
    | none => ⟨[Reply.noAudioStream], ConvState.URL, ud, disk, []⟩
    | some s =>
      match o.aDownload with
      | none => ⟨[Reply.errorProcessingAudio], ConvState.URL, ud, disk, []⟩
      | some p =>
        let disk1 := disk.insert p
        let mp3 := pythonReplace p ".mp4" ".mp3"
        if sizeGateRejects s.filesize then
          match osRemove disk1 p with
          | Except.ok disk2 =>
            ⟨[Reply.sizeExceededAudio s.filesize], ConvState.URL, ud, disk2,
              [Event.download p, Event.removed p]⟩
          | Except.error _ =>
            ⟨[Reply.sizeExceededAudio s.filesize, Reply.errorProcessingAudio],
              ConvState.URL, ud, disk1, [Event.download p, Event.removeFailed p]⟩
        else
          if o.aTranscode = false then
            ⟨[Reply.errorProcessingAudio], ConvState.URL, ud, disk1, [Event.download p]⟩
          else
            let disk2 := disk1.insert mp3
            if o.aDeliver = false then
              ⟨[Reply.errorProcessingAudio], ConvState.URL, ud, disk2,
                [Event.download p, Event.transcode p mp3, Event.send mp3]⟩
            else
              match osRemove disk2 p with
              | Except.error _ =>
                ⟨[Reply.errorProcessingAudio], ConvState.URL, ud, disk2,
                  [Event.download p, Event.transcode p mp3, Event.send mp3,
                    Event.removeFailed p]⟩
              | Except.ok disk3 =>
                match osRemove disk3 mp3 with
                | Except.error _ =>
                  ⟨[Reply.errorProcessingAudio], ConvState.URL, ud, disk3,
                    [Event.download p, Event.transcode p mp3, Event.send mp3,
                      Event.removed p, Event.removeFailed mp3]⟩
                | Except.ok disk4 =>
                  ⟨[Reply.doneReply], ConvState.URL, ud, disk4,
                    [Event.download p, Event.transcode p mp3, Event.send mp3,
                      Event.removed p, Event.removed mp3]⟩

/-- Handler `cancel` (`bot.py` lines 157-160): reply, clear `user_data`,
return `ConversationHandler.END`. -/
def cancel (ud : UserData) (disk : List String) : HandlerResult :=
  let _ := ud
  ⟨[Reply.cancelled], ConvState.END, ⟨none, none⟩, disk, []⟩

/-- Telegram command detection (`Filters.command` / `CommandHandler`): a
text message is a command when it starts with a slash. -/
def isCommandMsg (m : String) : Bool :=
  m.data.head? = some '/'

/-- The command name of a message: the characters between the leading slash
and the first space.  `CommandHandler('cancel')` matches messages whose
command name is `cancel`. -/
def commandName (m : String) : Option String :=
  if m.data.head? = some '/' then
    some (String.mk ((m.data.drop 1).takeWhile (fun c => c ≠ ' ')))
  else none

/-- The `ConversationHandler` dispatch built in `main` (`bot.py` lines
178-189), as python-telegram-bot resolves it: the current state's handlers
are tried first, the `/cancel` fallback only if none of them matches, and
an unmatched update leaves everything unchanged.  In state `RESOLUTION` the
handler is `MessageHandler(Filters.command, download_video)`, which matches
every command — including `/cancel`, so the fallback is unreachable there.
`END` models "no active conversation", where only the `/start` entry point
fires. -/
def handleMessage (st : ConvState) (ud : UserData) (m : String) (o : Oracle)
    (disk : List String) : HandlerResult :=
  match st with
  | ConvState.URL =>
    if isCommandMsg m = false then receive_url ud o disk
    else if commandName m = some "cancel" then cancel ud disk
    else ⟨[], st, ud, disk, []⟩
  | ConvState.FORMAT =>
    if commandName m = some "video" then select_video ud o disk
    else if commandName m = some "audio" then download_audio ud o disk
    else if commandName m = some "cancel" then cancel ud disk
    else ⟨[], st, ud, disk, []⟩
  | ConvState.RESOLUTION =>
    if isCommandMsg m = true then download_video ud m o disk
    else ⟨[], st, ud, disk, []⟩
  | ConvState.END =>
    if commandName m = some "start" then start ud disk
    else ⟨[], st, ud, disk, []⟩

/-- Replacement of only the FIRST occurrence of a pattern, on character
lists with fuel.  Modelled from the claim wording for comparison with the
source's `str.replace` semantics; not part of the code. -/
def replaceFirstAux (pat rep : List Char) : Nat → List Char → List Char
  | 0, s => s
  | _ + 1, [] => []
  | fuel + 1, c :: rest =>
    if pat ≠ [] ∧ pat.isPrefixOf (c :: rest) then
      rep ++ (c :: rest).drop pat.length
    else
      c :: replaceFirstAux pat rep fuel rest

/-- Modelled from the claim: the downloaded path with its first occurrence
of `'.mp4'` replaced by `'.mp3'`, for comparison with `pythonReplace`. -/
def replaceFirst (s pat rep : String) : String :=
  String.mk (replaceFirstAux pat.data rep.data s.data.length s.data)

/-- Modelled from the spec (section 4.2): the documented catalog ordering —
resolution descending, ties broken by declared fps descending, then by
declared size descending, then by catalog order (stable).  Expressed as a
stable sort by the lexicographic descending key; for comparison with the
source ordering `orderByResolutionDesc`. -/
def lexGe (a b : Nat × Nat × Nat) : Prop :=
  b.1 < a.1 ∨ (a.1 = b.1 ∧ (b.2.1 < a.2.1 ∨ (a.2.1 = b.2.1 ∧ b.2.2 ≤ a.2.2)))

instance : DecidableRel lexGe := fun _ _ => instDecidableOr

/-- The spec's sort key: (resolution, declared fps, declared size). -/
def specKey (s : PyStream) : Nat × Nat × Nat :=
  (numKey s, s.fps, s.filesize)

/-- Modelled from the spec (section 4.2): the catalog ordering with the
documented tie-break, as a stable descending sort. -/
def specCatalogSort (l : List PyStream) : List PyStream :=
  List.insertionSort (fun a b => lexGe (specKey a) (specKey b))
    (l.filter (fun s => s.resolution.isSome))

/-- Fixture: a 30 MB progressive MP4 stream labelled 720p. -/
def v720 : PyStream := ⟨some "720p", 30, 31457280, true, "mp4", false⟩

/-- Fixture: a 60 MB progressive MP4 stream labelled 1080p (over the
50 MB gate). -/
def v1080 : PyStream := ⟨some "1080p", 30, 62914560, true, "mp4", false⟩

/-- Fixture: a 720p progressive MP4 stream declaring 60 fps, for the
tie-break counterexample. -/
def tie60 : PyStream := ⟨some "720p", 60, 1000, true, "mp4", false⟩

/-- Fixture: a 720p progressive MP4 stream declaring 30 fps, listed after
`tie60` in catalog order. -/
def tie30 : PyStream := ⟨some "720p", 30, 1000, true, "mp4", false⟩

/-- Fixture: a 10 MB audio-only stream. -/
def audioSmall : PyStream := ⟨none, 0, 10485760, false, "mp4", true⟩

/-- Fixture: a 60 MB audio-only stream (over the 50 MB gate). -/
def audioBig : PyStream := ⟨none, 0, 62914560, false, "mp4", true⟩

/-- Fixture: a resolved video whose only stream is `v720`. -/
def yt0 : YT := ⟨"clip", [v720]⟩

/-- Fixture: session data holding `yt0` and the enumerated catalog
`[v720]`. -/
def ud0 : UserData := ⟨some yt0, some [v720]⟩

/-- Fixture: a resolved video whose only stream is the small audio one. -/
def ytAudioSmall : YT := ⟨"clip", [audioSmall]⟩

/-- Fixture: a resolved video whose only stream is the big audio one. -/
def ytAudioBig : YT := ⟨"clip", [audioBig]⟩

/-- Fixture oracle: every external call succeeds; video download lands at
`downloads/v.mp4`, audio download at `downloads/a.mp4`. -/
def oAllOk : Oracle := ⟨some yt0, true, some "downloads/v.mp4", true, some "downloads/a.mp4", true, true⟩

/-- Fixture oracle: like `oAllOk` but the Telegram video send fails. -/
def oSendFail : Oracle := ⟨some yt0, true, some "downloads/v.mp4", false, some "downloads/a.mp4", true, true⟩

/-- Fixture oracle: like `oAllOk` but the ffmpeg transcode fails. -/
def oNoTranscode : Oracle := ⟨some yt0, true, some "downloads/v.mp4", true, some "downloads/a.mp4", false, true⟩

/-- Fixture oracle: all calls succeed and the audio download lands at a
path without `'.mp4'` in it. -/
def oWebm : Oracle := ⟨some yt0, true, some "downloads/v.mp4", true, some "downloads/track.webm", true, true⟩

/-- Reachability of an engine configuration (conversation state, user data,
scratch disk) for one user: the initial configuration has no conversation,
empty `user_data` and an empty scratch directory, and each inbound message
(with any outcome of the external calls) steps via `handleMessage`. -/
inductive Reachable : ConvState → UserData → List String → Prop where
  | init : Reachable ConvState.END ⟨none, none⟩ []
  | step {st ud disk} (m : String) (o : Oracle) :
      Reachable st ud disk →
      Reachable (handleMessage st ud m o disk).next (handleMessage st ud m o disk).ud
        (handleMessage st ud m o disk).disk

/-- The presence invariant that actually holds of reachable configurations
(one direction of the spec's session invariant): in `RESOLUTION` both
`'video'` and `'streams'` are present, in `FORMAT` `'video'` is present.
The spec's converse directions fail, see the C2 counterexample. -/
@[reducible] def stateInv (st : ConvState) (ud : UserData) : Prop :=
  (st = ConvState.RESOLUTION → ud.video ≠ none ∧ ud.streams ≠ none) ∧
  (st = ConvState.FORMAT → ud.video ≠ none)

/-! ### Helper lemmas -/

/-- The size test as an integer comparison: `filesize / (1024*1024) > 50`
over `ℚ` holds exactly when `filesize > 52428800`. -/
@[simp] theorem sizeGateRejects_eq (S : ℕ) :
    sizeGateRejects S = decide (52428800 < S) := by
  unfold sizeGateRejects
  rw [decide_eq_decide, gt_iff_lt, lt_div_iff₀ (by norm_num)]
  constructor
  · intro h
    exact_mod_cast h
  · intro h
    have h' : ((52428800 : ℕ) : ℚ) < (S : ℚ) := by exact_mod_cast h
    calc (50 : ℚ) * (1024 * 1024) = ((52428800 : ℕ) : ℚ) := by norm_num
    _ < (S : ℚ) := h'

/-- Inserting a path and then removing it leaves the disk without it,
whether or not it was present before. -/
theorem insert_filter_ne (l : List String) (p : String) :
    (l.insert p).filter (fun q => !decide (q = p)) = l.filter (fun q => !decide (q = p)) := by
  by_cases h : p ∈ l
  · rw [List.insert_of_mem h]
  · rw [List.insert_of_not_mem h]
    simp

/-- A removed path is not on the resulting disk. -/
theorem not_mem_filter_ne (l : List String) (p : String) :
    p ∉ l.filter (fun q => q ≠ p) := by
  simp

/-- Python `replace` is the identity on strings that do not contain the
(non-empty) pattern, at any fuel. -/
theorem replaceAux_no_occurrence (pat rep : List Char) :
    ∀ (fuel : Nat) (s : List Char), ¬ pat <:+: s → replaceAux pat rep fuel s = s
  | 0, _, _ => rfl
  | _ + 1, [], _ => rfl
  | fuel + 1, c :: rest, h => by
    have hpre : ¬ (pat ≠ [] ∧ pat.isPrefixOf (c :: rest)) := by
      rintro ⟨_, hp⟩
      exact h (List.isPrefixOf_iff_prefix.mp hp).isInfix
    have hrest : ¬ pat <:+: rest := fun hi => h (List.infix_cons hi)
    rw [replaceAux, if_neg hpre, replaceAux_no_occurrence pat rep fuel rest hrest]

/-- String form of `replaceAux_no_occurrence`. -/
theorem pythonReplace_no_occurrence (s pat rep : String)
    (h : ¬ pat.data <:+: s.data) : pythonReplace s pat rep = s := by
  obtain ⟨d⟩ := s
  unfold pythonReplace
  rw [replaceAux_no_occurrence pat.data rep.data d.length d h]

/-- A character list containing the separator splits as the part up to the
first separator (the `takeWhile`) followed by the separator and a rest. -/
theorem takeWhile_eq_append (r : List Char) (h : '_' ∈ r) :
    ∃ suf, r = r.takeWhile (fun c => c ≠ '_') ++ '_' :: suf := by
  induction r with
  | nil => cases h
  | cons c r' ih =>
    by_cases hc : c = '_'
    · subst hc
      exact ⟨r', by simp [List.takeWhile_cons]⟩
    · have h' : '_' ∈ r' := by
        rcases List.mem_cons.mp h with h | h
        · exact absurd h.symm hc
        · exact h
      obtain ⟨suf, hs⟩ := ih h'
      refine ⟨suf, ?_⟩
      have hp : (fun c => decide (c ≠ '_')) c = true := by simp [hc]
      rw [List.takeWhile_cons, if_pos hp, List.cons_append]
      exact congrArg (c :: ·) hs

/-- The separator does not occur in the `takeWhile` part. -/
theorem not_mem_takeWhile_ne (r : List Char) :
    '_' ∉ r.takeWhile (fun c => c ≠ '_') := by
  intro hm
  have := List.mem_takeWhile_imp hm
  simp at this

/-- Characterization of the tag parse: for a command containing an
underscore, the parse succeeds and returns exactly the suffix after the
last underscore (an underscore-free tail of the command). -/
theorem resolutionOfCommand_spec (cmd : String) (h : '_' ∈ cmd.data) :
    ∃ pre tag, cmd.data = pre ++ '_' :: tag ∧ '_' ∉ tag ∧
      resolutionOfCommand cmd = some (String.mk tag) := by
  have hrev : '_' ∈ cmd.data.reverse := List.mem_reverse.mpr h
  obtain ⟨suf, hs⟩ := takeWhile_eq_append cmd.data.reverse hrev
  refine ⟨suf.reverse, (cmd.data.reverse.takeWhile (fun c => c ≠ '_')).reverse, ?_, ?_, ?_⟩
  · have e1 : cmd.data = (cmd.data.reverse).reverse := (List.reverse_reverse _).symm
    conv_lhs => rw [e1, hs]
    rw [List.reverse_append, List.reverse_cons, List.append_assoc, List.singleton_append]
  · intro hm
    exact not_mem_takeWhile_ne cmd.data.reverse (List.mem_reverse.mp hm)
  · unfold resolutionOfCommand
    rw [if_pos (by simpa using h)]

/-- `receive_url` establishes the presence invariant: when it moves to
`FORMAT` it has just stored the resolved video. -/
theorem receive_url_inv (ud : UserData) (o : Oracle) (disk : List String) :
    stateInv (receive_url ud o disk).next (receive_url ud o disk).ud := by
  unfold receive_url stateInv
  cases o.resolve <;> simp

/-- `select_video` establishes the presence invariant: when it moves to
`RESOLUTION` it has just stored the catalog and the video was present. -/
theorem select_video_inv (ud : UserData) (o : Oracle) (disk : List String) :
    stateInv (select_video ud o disk).next (select_video ud o disk).ud := by
  unfold select_video stateInv
  cases hv : ud.video with
  | none => simp
  | some yt =>
    by_cases hl : o.listOk = false
    · simp [hl]
    · by_cases hc : orderByResolutionDesc (progressiveMp4 yt.streams) = []
      · simp [hl, hc]
      · simp [hl, hc, hv]

/-- Every exit path of `download_audio` returns `URL`. -/
theorem download_audio_next (ud : UserData) (o : Oracle) (disk : List String) :
    (download_audio ud o disk).next = ConvState.URL := by
  unfold download_audio
  rcases ud with ⟨v, st⟩
  rcases v with _ | yt
  · rfl
  · dsimp only
    repeat' split
    all_goals rfl

/-- `download_video` never changes `user_data`, and stays in `RESOLUTION`
only when both session fields were present (the guard sends missing data
to `URL`). -/
theorem download_video_shape (ud : UserData) (m : String) (o : Oracle)
    (disk : List String) :
    (download_video ud m o disk).ud = ud ∧
    ((download_video ud m o disk).next = ConvState.RESOLUTION →
      ud.video ≠ none ∧ ud.streams ≠ none) ∧
    (download_video ud m o disk).next ≠ ConvState.FORMAT := by
  unfold download_video
  rcases ud with ⟨v, st⟩
  rcases v with _ | yt <;> rcases st with _ | ss
  · exact ⟨rfl, by simp, by simp⟩
  · exact ⟨rfl, by simp, by simp⟩
  · exact ⟨rfl, by simp, by simp⟩
  · dsimp only
    repeat' split
    all_goals simp

/-- One dispatch step preserves the presence invariant. -/
theorem handleMessage_inv (st : ConvState) (ud : UserData) (m : String)
    (o : Oracle) (disk : List String) (h : stateInv st ud) :
    stateInv (handleMessage st ud m o disk).next (handleMessage st ud m o disk).ud := by
  cases st with
  | URL =>
    by_cases h1 : isCommandMsg m = false
    · have e : handleMessage ConvState.URL ud m o disk = receive_url ud o disk := by
        unfold handleMessage
        rw [if_pos h1]
      rw [e]
      exact receive_url_inv ud o disk
    · by_cases h2 : commandName m = some "cancel"
      · have e : handleMessage ConvState.URL ud m o disk = cancel ud disk := by
          unfold handleMessage
          rw [if_neg h1, if_pos h2]
        rw [e]
        exact ⟨(fun he => nomatch he), (fun he => nomatch he)⟩
      · have e : handleMessage ConvState.URL ud m o disk =
            ⟨[], ConvState.URL, ud, disk, []⟩ := by
          unfold handleMessage
          rw [if_neg h1, if_neg h2]
        rw [e]
        exact ⟨(fun he => nomatch he), (fun he => nomatch he)⟩
  | FORMAT =>
    by_cases h1 : commandName m = some "video"
    · have e : handleMessage ConvState.FORMAT ud m o disk = select_video ud o disk := by
        unfold handleMessage
        rw [if_pos h1]
      rw [e]
      exact select_video_inv ud o disk
    · by_cases h2 : commandName m = some "audio"
      · have e : handleMessage ConvState.FORMAT ud m o disk = download_audio ud o disk := by
          unfold handleMessage
          rw [if_neg h1, if_pos h2]
        rw [e]
        rw [stateInv, download_audio_next]
        exact ⟨(fun he => nomatch he), (fun he => nomatch he)⟩
      · by_cases h3 : commandName m = some "cancel"
        · have e : handleMessage ConvState.FORMAT ud m o disk = cancel ud disk := by
            unfold handleMessage
            rw [if_neg h1, if_neg h2, if_pos h3]
          rw [e]
          exact ⟨(fun he => nomatch he), (fun he => nomatch he)⟩
        · have e : handleMessage ConvState.FORMAT ud m o disk =
              ⟨[], ConvState.FORMAT, ud, disk, []⟩ := by
            unfold handleMessage
            rw [if_neg h1, if_neg h2, if_neg h3]
          rw [e]
          exact ⟨(fun he => nomatch he), (fun _ => h.2 rfl)⟩
  | RESOLUTION =>
    by_cases h1 : isCommandMsg m = true
    · have e : handleMessage ConvState.RESOLUTION ud m o disk = download_video ud m o disk := by
        unfold handleMessage
        rw [if_pos h1]
      rw [e]
      obtain ⟨hud, hres, hfmt⟩ := download_video_shape ud m o disk
      refine ⟨fun he => ?_, fun he => absurd he hfmt⟩
      rw [hud]
      exact hres he
    · have e : handleMessage ConvState.RESOLUTION ud m o disk =
          ⟨[], ConvState.RESOLUTION, ud, disk, []⟩ := by
        unfold handleMessage
        rw [if_neg h1]
      rw [e]
      exact ⟨(fun _ => h.1 rfl), (fun he => nomatch he)⟩
  | END =>
    by_cases h1 : commandName m = some "start"
    · have e : handleMessage ConvState.END ud m o disk = start ud disk := by
        unfold handleMessage
        rw [if_pos h1]
      rw [e]
      exact ⟨(fun he => nomatch he), (fun he => nomatch he)⟩
    · have e : handleMessage ConvState.END ud m o disk =
          ⟨[], ConvState.END, ud, disk, []⟩ := by
        unfold handleMessage
        rw [if_neg h1]
      rw [e]
      exact ⟨(fun he => nomatch he), (fun he => nomatch he)⟩

/-- After `/start`, the conversation is in `URL` with empty session data. -/
theorem reach_URL : Reachable ConvState.URL ⟨none, none⟩ [] := by
  have e : handleMessage ConvState.END ⟨none, none⟩ "/start" oAllOk [] =
      ⟨[Reply.welcome], ConvState.URL, ⟨none, none⟩, [], []⟩ := by decide
  have h := Reachable.step "/start" oAllOk Reachable.init
  rw [e] at h
  exact h

/-- After a successfully resolved URL, the conversation is in `FORMAT`
holding the video. -/
theorem reach_FORMAT : Reachable ConvState.FORMAT ⟨some yt0, none⟩ [] := by
  have e : handleMessage ConvState.URL ⟨none, none⟩ "u" oAllOk [] =
      ⟨[Reply.gotVideo "clip"], ConvState.FORMAT, ⟨some yt0, none⟩, [], []⟩ := by decide
  have h := Reachable.step "u" oAllOk reach_URL
  rw [e] at h
  exact h

/-- After `/video`, the conversation is in `RESOLUTION` holding the
catalog. -/
theorem reach_RESOLUTION : Reachable ConvState.RESOLUTION ⟨some yt0, some [v720]⟩ [] := by
  have e : handleMessage ConvState.FORMAT ⟨some yt0, none⟩ "/video" oAllOk [] =
      ⟨[Reply.resolutionListing [v720]], ConvState.RESOLUTION,
        ⟨some yt0, some [v720]⟩, [], []⟩ := by decide
  have h := Reachable.step "/video" oAllOk reach_FORMAT
  rw [e] at h
  exact h

/-- After a fully successful `/res_720p` download and delivery, the
conversation is back in `URL` — with `user_data` NOT cleared. -/
theorem reach_URL_stale : Reachable ConvState.URL ⟨some yt0, some [v720]⟩ [] := by
  have e : handleMessage ConvState.RESOLUTION ⟨some yt0, some [v720]⟩ "/res_720p" oAllOk [] =
      ⟨[Reply.downloadedSending "720p", Reply.doneReply], ConvState.URL,
        ⟨some yt0, some [v720]⟩, [],
        [Event.download "downloads/v.mp4", Event.send "downloads/v.mp4",
          Event.removed "downloads/v.mp4"]⟩ := by
    simp [handleMessage, download_video, isCommandMsg, resolutionOfCommand, yt0, v720,
      oAllOk, osRemove, List.insert]
  have h := Reachable.step "/res_720p" oAllOk reach_RESOLUTION
  rw [e] at h
  exact h

/-! ### C2: session-field presence invariant -/

/-- C2 counterexample: the spec's invariant "`catalog` is present iff
`state == AWAITING_RESOLUTION`" fails on a reachable configuration: after a
successful download and delivery the handler returns to `URL` without
clearing `user_data`, so the conversation sits in `URL` with both
`'streams'` (the catalog) and `'video'` (the mediaRef) still present. -/
theorem C2_invariant_cex :
    Reachable ConvState.URL ⟨some yt0, some [v720]⟩ [] ∧
    (UserData.mk (some yt0) (some [v720])).streams ≠ none ∧
    ConvState.URL ≠ ConvState.RESOLUTION ∧
    (UserData.mk (some yt0) (some [v720])).video ≠ none :=
  ⟨reach_URL_stale, by decide, by decide, by decide⟩

/-- C2 amended: only one direction of the invariant holds on every
reachable configuration — in `RESOLUTION` both the catalog and the mediaRef
are present, and in `FORMAT` the mediaRef is present; the converse
directions fail because returns to `URL` other than `/cancel` never clear
the session fields. -/
theorem C2_invariant_amended :
    ∀ (st : ConvState) (ud : UserData) (disk : List String),
    Reachable st ud disk → stateInv st ud := by
  intro st ud disk h
  induction h with
  | init => exact ⟨(fun he => nomatch he), (fun he => nomatch he)⟩
  | step m o _ ih => exact handleMessage_inv _ _ m o _ ih

/-- C2 witness: the amended invariant evaluated on the concrete reachable
`RESOLUTION` configuration of the fixture session. -/
theorem C2_invariant_witness :
    stateInv ConvState.RESOLUTION ⟨some yt0, some [v720]⟩ :=
  C2_invariant_amended ConvState.RESOLUTION ⟨some yt0, some [v720]⟩ [] reach_RESOLUTION

/-! ### C1: cleanup on every terminal outcome -/

/-- C1 counterexample: when the Telegram send fails, the `except` branch of
`download_video` returns control to the state machine (state `RESOLUTION`)
without deleting the downloaded file — a scratch artifact of the session
remains on disk, contradicting "the delivered path is deleted whether the
delivery send succeeds or fails". -/
theorem C1_cleanup_cex :
    (download_video ud0 "/res_720p" oSendFail []).next = ConvState.RESOLUTION ∧
    (download_video ud0 "/res_720p" oSendFail []).disk = ["downloads/v.mp4"] := by
  constructor <;>
    simp [download_video, ud0, yt0, v720, oSendFail, resolutionOfCommand, List.insert]

/-- C1 amended: cleanup happens only on the fully successful path — there
the downloaded file is deleted after the send and no artifact of the run
remains; on a failed send the downloaded file stays on disk when control
returns to the state machine. -/
theorem C1_cleanup_amended :
    ∀ (yt : YT) (ss : List PyStream) (cmd r : String) (s : PyStream) (p : String)
      (o : Oracle) (disk : List String),
    ss ≠ [] →
    resolutionOfCommand cmd = some r → r ≠ "" →
    ss.find? (fun t => t.resolution == some r) = some s →
    sizeGateRejects s.filesize = false →
    o.vDownload = some p →
    ((o.vDeliver = true →
        (download_video ⟨some yt, some ss⟩ cmd o disk).disk = disk.filter (fun q => q ≠ p) ∧
        p ∉ (download_video ⟨some yt, some ss⟩ cmd o disk).disk ∧
        (download_video ⟨some yt, some ss⟩ cmd o disk).next = ConvState.URL) ∧
     (o.vDeliver = false →
        p ∈ (download_video ⟨some yt, some ss⟩ cmd o disk).disk ∧
        (download_video ⟨some yt, some ss⟩ cmd o disk).next = ConvState.RESOLUTION)) := by
  intro yt ss cmd r s p o disk hss hcmd hr hfind hgate hdl
  rw [sizeGateRejects_eq, decide_eq_false_iff_not] at hgate
  constructor
  · intro hdel
    simp [download_video, hss, hcmd, hr, hfind, hgate, hdl, hdel, osRemove,
      insert_filter_ne, List.mem_filter]
  · intro hdel
    simp [download_video, hss, hcmd, hr, hfind, hgate, hdl, hdel, List.mem_insert_self]

/-- C1 witness: the amended cleanup statement evaluated on the fixture
session with a successful send. -/
theorem C1_cleanup_witness :
    (download_video ⟨some yt0, some [v720]⟩ "/res_720p" oAllOk []).disk = [] ∧
    (download_video ⟨some yt0, some [v720]⟩ "/res_720p" oAllOk []).next = ConvState.URL := by
  have h := (C1_cleanup_amended yt0 [v720] "/res_720p" "720p" v720 "downloads/v.mp4" oAllOk []
    (by decide) (by decide) (by decide) (by decide)
    (by rw [sizeGateRejects_eq]; decide) (by decide)).1 (by decide)
  exact ⟨by simpa using h.1, h.2.2⟩

/-! ### C3: size gate relative to the fetch -/

/-- C3 counterexample: in the audio pipeline the size test runs only AFTER
the download — on a 60 MB audio stream the run both records a download
event and replies with the size rejection, contradicting "rejection never
downloads anything". -/
theorem C3_gate_order_cex :
    (download_audio ⟨some ytAudioBig, none⟩ oAllOk []).replies =
      [Reply.sizeExceededAudio 62914560] ∧
    Event.download "downloads/a.mp4" ∈ (download_audio ⟨some ytAudioBig, none⟩ oAllOk []).trace := by
  constructor <;>
    simp [download_audio, ytAudioBig, audioBig, oAllOk, osRemove, List.insert, pythonReplace,
      replaceAux]

/-- C3 amended: in the video pipeline the gate does run before the fetch —
a rejection triggers no external effect and leaves state and disk
untouched; in the audio pipeline the stream is fetched first, and a
rejection then deletes the fetched file (no artifact remains, but network
and disk were consumed). -/
theorem C3_gate_order_amended :
    (∀ (yt : YT) (ss : List PyStream) (cmd r : String) (s : PyStream)
        (o : Oracle) (disk : List String),
      ss ≠ [] → resolutionOfCommand cmd = some r → r ≠ "" →
      ss.find? (fun t => t.resolution == some r) = some s →
      sizeGateRejects s.filesize = true →
      (download_video ⟨some yt, some ss⟩ cmd o disk).trace = [] ∧
      (download_video ⟨some yt, some ss⟩ cmd o disk).disk = disk ∧
      (download_video ⟨some yt, some ss⟩ cmd o disk).next = ConvState.RESOLUTION) ∧
    (∀ (yt : YT) (str : Option (List PyStream)) (s : PyStream) (p : String)
        (o : Oracle) (disk : List String),
      yt.streams.find? (fun t => t.onlyAudio) = some s →
      o.aDownload = some p →
      sizeGateRejects s.filesize = true →
      Event.download p ∈ (download_audio ⟨some yt, str⟩ o disk).trace ∧
      p ∉ (download_audio ⟨some yt, str⟩ o disk).disk ∧
      (download_audio ⟨some yt, str⟩ o disk).next = ConvState.URL) := by
  constructor
  · intro yt ss cmd r s o disk hss hcmd hr hfind hgate
    rw [sizeGateRejects_eq, decide_eq_true_eq] at hgate
    refine ⟨?_, ?_, ?_⟩ <;> simp [download_video, hss, hcmd, hr, hfind, hgate]
  · intro yt str s p o disk hfind hdl hgate
    rw [sizeGateRejects_eq, decide_eq_true_eq] at hgate
    refine ⟨?_, ?_, ?_⟩ <;>
      simp [download_audio, hfind, hdl, hgate, osRemove, insert_filter_ne, List.mem_filter,
        List.mem_insert_self]

/-- C3 witness: the amended statement evaluated on a 60 MB video stream
(gate rejects before any fetch) and on the 60 MB audio fixture (fetch then
delete). -/
theorem C3_gate_order_witness :
    ((download_video ⟨some ⟨"clip", [v1080]⟩, some [v1080]⟩ "/res_1080p" oAllOk []).trace = [] ∧
     (download_video ⟨some ⟨"clip", [v1080]⟩, some [v1080]⟩ "/res_1080p" oAllOk []).disk = [] ∧
     (download_video ⟨some ⟨"clip", [v1080]⟩, some [v1080]⟩ "/res_1080p" oAllOk []).next =
       ConvState.RESOLUTION) ∧
    (Event.download "downloads/a.mp4" ∈ (download_audio ⟨some ytAudioBig, none⟩ oAllOk []).trace ∧
     "downloads/a.mp4" ∉ (download_audio ⟨some ytAudioBig, none⟩ oAllOk []).disk ∧
     (download_audio ⟨some ytAudioBig, none⟩ oAllOk []).next = ConvState.URL) := by
  constructor
  · exact (C3_gate_order_amended.1 ⟨"clip", [v1080]⟩ [v1080] "/res_1080p" "1080p" v1080 oAllOk []
      (by decide) (by decide) (by decide) (by decide) (by rw [sizeGateRejects_eq]; decide))
  · exact (C3_gate_order_amended.2 ytAudioBig none audioBig "downloads/a.mp4" oAllOk []
      (by decide) (by decide) (by rw [sizeGateRejects_eq]; decide))

/-! ### C5: raw-audio cleanup on transcode failure -/

/-- C5 counterexample: when the ffmpeg transcode raises, the `except`
branch of `download_audio` replies with the error and returns — without
deleting the raw downloaded file, which remains on disk. -/
theorem C5_transcode_cleanup_cex :
    "downloads/a.mp4" ∈ (download_audio ⟨some ytAudioSmall, none⟩ oNoTranscode []).disk ∧
    (download_audio ⟨some ytAudioSmall, none⟩ oNoTranscode []).replies =
      [Reply.errorProcessingAudio] := by
  constructor <;> simp [download_audio, ytAudioSmall, audioSmall, oNoTranscode, List.insert]

/-- C5 amended: on a transcode failure (raw file fetched, size gate
admitting), the raw file is NOT deleted before the failure is surfaced: the
run ends in `URL` with the error reply and the raw path still on disk. -/
theorem C5_transcode_cleanup_amended :
    ∀ (yt : YT) (str : Option (List PyStream)) (s : PyStream) (p : String)
      (o : Oracle) (disk : List String),
    yt.streams.find? (fun t => t.onlyAudio) = some s →
    o.aDownload = some p →
    sizeGateRejects s.filesize = false →
    o.aTranscode = false →
    (download_audio ⟨some yt, str⟩ o disk).disk = disk.insert p ∧
    p ∈ (download_audio ⟨some yt, str⟩ o disk).disk ∧
    (download_audio ⟨some yt, str⟩ o disk).next = ConvState.URL ∧
    (download_audio ⟨some yt, str⟩ o disk).replies = [Reply.errorProcessingAudio] := by
  intro yt str s p o disk hfind hdl hgate htr
  rw [sizeGateRejects_eq, decide_eq_false_iff_not] at hgate
  refine ⟨?_, ?_, ?_, ?_⟩ <;>
    simp [download_audio, hfind, hdl, hgate, htr, List.mem_insert_self]

/-- C5 witness: the amended statement evaluated on the audio fixture with
a failing transcode. -/
theorem C5_transcode_cleanup_witness :
    (download_audio ⟨some ytAudioSmall, none⟩ oNoTranscode []).disk = ["downloads/a.mp4"] ∧
    (download_audio ⟨some ytAudioSmall, none⟩ oNoTranscode []).next = ConvState.URL := by
  have h := C5_transcode_cleanup_amended ytAudioSmall none audioSmall "downloads/a.mp4"
    oNoTranscode [] (by decide) (by decide) (by rw [sizeGateRejects_eq]; decide) (by decide)
  exact ⟨by simpa using h.1, h.2.2.1⟩

/-! ### C6: next state after a SELECT_RESOLUTION failure -/

/-- C6 counterexample: a delivery failure during `download_video` leaves
the session in `RESOLUTION`, not `URL` as the spec's transition table
claims ("AWAITING_URL on success or download/delivery failure"). -/
theorem C6_failure_state_cex :
    (download_video ud0 "/res_720p" oSendFail []).next = ConvState.RESOLUTION ∧
    (download_video ud0 "/res_720p" oSendFail []).replies =
      [Reply.downloadedSending "720p", Reply.errorDownloading] := by
  constructor <;>
    simp [download_video, ud0, yt0, v720, oSendFail, resolutionOfCommand, List.insert]

/-- C6 amended: from `RESOLUTION` with session data present, the next
state is `URL` only on full success; the session stays in `RESOLUTION` on
an invalid command, an unknown tag, a size-gate rejection, a download
failure AND a delivery failure. -/
theorem C6_failure_state_amended :
    ∀ (yt : YT) (ss : List PyStream) (cmd : String) (o : Oracle) (disk : List String),
    ss ≠ [] →
    ((∀ r s p, resolutionOfCommand cmd = some r → r ≠ "" →
        ss.find? (fun t => t.resolution == some r) = some s →
        sizeGateRejects s.filesize = false → o.vDownload = some p → o.vDeliver = true →
        (download_video ⟨some yt, some ss⟩ cmd o disk).next = ConvState.URL) ∧
     (∀ r s p, resolutionOfCommand cmd = some r → r ≠ "" →
        ss.find? (fun t => t.resolution == some r) = some s →
        sizeGateRejects s.filesize = false → o.vDownload = some p → o.vDeliver = false →
        (download_video ⟨some yt, some ss⟩ cmd o disk).next = ConvState.RESOLUTION) ∧
     (∀ r s, resolutionOfCommand cmd = some r → r ≠ "" →
        ss.find? (fun t => t.resolution == some r) = some s →
        sizeGateRejects s.filesize = false → o.vDownload = none →
        (download_video ⟨some yt, some ss⟩ cmd o disk).next = ConvState.RESOLUTION) ∧
     (∀ r s, resolutionOfCommand cmd = some r → r ≠ "" →
        ss.find? (fun t => t.resolution == some r) = some s →
        sizeGateRejects s.filesize = true →
        (download_video ⟨some yt, some ss⟩ cmd o disk).next = ConvState.RESOLUTION) ∧
     (∀ r, resolutionOfCommand cmd = some r → r ≠ "" →
        ss.find? (fun t => t.resolution == some r) = none →
        (download_video ⟨some yt, some ss⟩ cmd o disk).next = ConvState.RESOLUTION) ∧
     (resolutionOfCommand cmd = none →
        (download_video ⟨some yt, some ss⟩ cmd o disk).next = ConvState.RESOLUTION)) := by
  intro yt ss cmd o disk hss
  refine ⟨?_, ?_, ?_, ?_, ?_, ?_⟩
  · intro r s p hcmd hr hfind hgate hdl hdel
    rw [sizeGateRejects_eq, decide_eq_false_iff_not] at hgate
    simp [download_video, hss, hcmd, hr, hfind, hgate, hdl, hdel, osRemove,
      List.mem_insert_self]
  · intro r s p hcmd hr hfind hgate hdl hdel
    rw [sizeGateRejects_eq, decide_eq_false_iff_not] at hgate
    simp [download_video, hss, hcmd, hr, hfind, hgate, hdl, hdel]
  · intro r s hcmd hr hfind hgate hdl
    rw [sizeGateRejects_eq, decide_eq_false_iff_not] at hgate
    simp [download_video, hss, hcmd, hr, hfind, hgate, hdl]
  · intro r s hcmd hr hfind hgate
    rw [sizeGateRejects_eq, decide_eq_true_eq] at hgate
    simp [download_video, hss, hcmd, hr, hfind, hgate]
  · intro r hcmd hr hfind
    simp [download_video, hss, hcmd, hr, hfind]
  · intro hcmd
    simp [download_video, hss, hcmd]

/-- C6 witness: the amended transition rules evaluated on the fixture
session, one success case and one delivery-failure case. -/
theorem C6_failure_state_witness :
    (download_video ⟨some yt0, some [v720]⟩ "/res_720p" oAllOk []).next = ConvState.URL ∧
    (download_video ⟨some yt0, some [v720]⟩ "/res_720p" oSendFail []).next =
      ConvState.RESOLUTION := by
  constructor
  · exact (C6_failure_state_amended yt0 [v720] "/res_720p" oAllOk [] (by decide)).1
      "720p" v720 "downloads/v.mp4" (by decide) (by decide) (by decide)
      (by rw [sizeGateRejects_eq]; decide) (by decide) (by decide)
  · exact (C6_failure_state_amended yt0 [v720] "/res_720p" oSendFail [] (by decide)).2.1
      "720p" v720 "downloads/v.mp4" (by decide) (by decide) (by decide)
      (by rw [sizeGateRejects_eq]; decide) (by decide) (by decide)

/-! ### C4: size-gate boundary -/

/-- C4: the size test admits a stream exactly when its byte size is at most
`50 * 1024 * 1024 = 52428800`; in particular a stream of exactly the limit
is admitted and one byte more is rejected.  This is the comparison as
implemented — bytes divided by `1024 * 1024` compared against 50 — which is
exact because dividing by a power of two is exact in binary floating
point. -/
theorem C4_size_gate_boundary :
    (∀ S : ℕ, sizeGateRejects S = false ↔ S ≤ 52428800) ∧
    sizeGateRejects 52428800 = false ∧
    sizeGateRejects 52428801 = true := by
  refine ⟨fun S => ?_, ?_, ?_⟩
  · rw [sizeGateRejects_eq, decide_eq_false_iff_not, not_lt]
  · rw [sizeGateRejects_eq]
    decide
  · rw [sizeGateRejects_eq]
    decide

/-! ### C7: catalog ordering -/

/-- C7 counterexample: on two streams with the same resolution label the
code's ordering (`order_by('resolution').desc()`, i.e. reverse of a stable
ascending sort) puts the catalog-later, LOWER-fps stream first, while the
spec's documented tie-break (fps descending, then size descending, then
stable catalog order) puts the higher-fps stream first. -/
theorem C7_ordering_cex :
    orderByResolutionDesc [tie60, tie30] = [tie30, tie60] ∧
    specCatalogSort [tie60, tie30] = [tie60, tie30] ∧
    orderByResolutionDesc [tie60, tie30] ≠ specCatalogSort [tie60, tie30] := by
  refine ⟨by decide, by decide, by decide⟩

/-- C7 amended: the enumerated catalog is sorted by resolution descending
(numeric value of the label) and is a permutation of the streams carrying a
resolution label; re-running on identical data is deterministic because the
ordering is a pure function.  Ties are NOT broken by fps or size — they
appear in reverse catalog order, as the counterexample shows. -/
theorem C7_ordering_amended :
    ∀ l : List PyStream,
    (l.filter (fun s => s.resolution.isSome)).all
        (fun s => (digitsVal (resStr s)).isSome) = true →
    List.Sorted (fun a b => numKey b ≤ numKey a) (orderByResolutionDesc l) ∧
    (orderByResolutionDesc l).Perm (l.filter (fun s => s.resolution.isSome)) := by
  intro l h
  simp only [orderByResolutionDesc]
  rw [if_pos h]
  constructor
  · rw [List.Sorted, List.pairwise_reverse]
    exact List.sorted_insertionSort numLe _
  · exact (List.reverse_perm _).trans (List.perm_insertionSort numLe _)

/-- C7 witness: the amended ordering statement evaluated on the concrete
tied catalog. -/
theorem C7_ordering_witness :
    List.Sorted (fun a b => numKey b ≤ numKey a) (orderByResolutionDesc [tie60, tie30]) ∧
    (orderByResolutionDesc [tie60, tie30]).Perm
      ([tie60, tie30].filter (fun s => s.resolution.isSome)) :=
  C7_ordering_amended [tie60, tie30] (by decide)

/-! ### C8: CANCEL handling per state -/

/-- C8: in state `RESOLUTION` the handler registered for ALL commands is
`download_video`, so python-telegram-bot never reaches the `/cancel`
fallback there: `/cancel` is answered with the invalid-resolution-command
guidance and the session is neither cleared nor ended — although the bot's
own size-rejection reply explicitly offers `/cancel` in this state.  From
`URL` and `FORMAT` the fallback does fire and clears the session. -/
theorem C8_cancel_swallowed :
    handleMessage ConvState.RESOLUTION ud0 "/cancel" oAllOk [] =
      ⟨[Reply.invalidResolutionCommand], ConvState.RESOLUTION, ud0, [], []⟩ ∧
    handleMessage ConvState.FORMAT ⟨some yt0, none⟩ "/cancel" oAllOk [] =
      ⟨[Reply.cancelled], ConvState.END, ⟨none, none⟩, [], []⟩ ∧
    handleMessage ConvState.URL ⟨none, none⟩ "/cancel" oAllOk [] =
      ⟨[Reply.cancelled], ConvState.END, ⟨none, none⟩, [], []⟩ := by
  refine ⟨by decide, by decide, by decide⟩

/-! ### C9: resolution-tag parsing -/

/-- C9 counterexample: the command `/res_` DOES contain an underscore, yet
it is answered with the invalid-command guidance reply (the parsed segment
after the last underscore is empty, and Python's falsiness check sends the
empty tag into the invalid-command branch, not into catalog lookup). -/
theorem C9_tag_parse_cex :
    '_' ∈ "/res_".data ∧
    (download_video ud0 "/res_" oAllOk []).replies = [Reply.invalidResolutionCommand] ∧
    (download_video ud0 "/res_" oAllOk []).next = ConvState.RESOLUTION := by
  refine ⟨by decide, by decide, by decide⟩

/-- C9 amended: the candidate tag is the segment after the LAST underscore
(underscore-free, with the command splitting as prefix + underscore + tag);
a command without an underscore — or whose segment after the last
underscore is EMPTY — produces the invalid-command guidance reply and
leaves the session in `RESOLUTION` with data and disk untouched. -/
theorem C9_tag_parse_amended :
    (∀ cmd : String, '_' ∈ cmd.data →
      ∃ pre tag, cmd.data = pre ++ '_' :: tag ∧ '_' ∉ tag ∧
        resolutionOfCommand cmd = some (String.mk tag)) ∧
    (∀ (yt : YT) (ss : List PyStream) (cmd : String) (o : Oracle) (disk : List String),
      ss ≠ [] →
      (resolutionOfCommand cmd = none ∨ resolutionOfCommand cmd = some "") →
      (download_video ⟨some yt, some ss⟩ cmd o disk).replies =
          [Reply.invalidResolutionCommand] ∧
      (download_video ⟨some yt, some ss⟩ cmd o disk).next = ConvState.RESOLUTION ∧
      (download_video ⟨some yt, some ss⟩ cmd o disk).ud = ⟨some yt, some ss⟩ ∧
      (download_video ⟨some yt, some ss⟩ cmd o disk).disk = disk) ∧
    (∀ cmd : String, '_' ∉ cmd.data → resolutionOfCommand cmd = none) := by
  refine ⟨resolutionOfCommand_spec, ?_, ?_⟩
  · intro yt ss cmd o disk hss hcase
    rcases hcase with hcmd | hcmd <;>
      exact ⟨by simp [download_video, hss, hcmd], by simp [download_video, hss, hcmd],
        by simp [download_video, hss, hcmd], by simp [download_video, hss, hcmd]⟩
  · intro cmd h
    unfold resolutionOfCommand
    rw [if_neg (by simpa using h)]

/-- C9 witness: the amended parse statement evaluated on `/res_720p`
(proper tag) and `/res_` (empty tag, guidance reply). -/
theorem C9_tag_parse_witness :
    (∃ pre tag, "/res_720p".data = pre ++ '_' :: tag ∧ '_' ∉ tag ∧
      resolutionOfCommand "/res_720p" = some (String.mk tag)) ∧
    (download_video ⟨some yt0, some [v720]⟩ "/res_" oAllOk []).next = ConvState.RESOLUTION := by
  constructor
  · exact C9_tag_parse_amended.1 "/res_720p" (by decide)
  · exact (C9_tag_parse_amended.2.1 yt0 [v720] "/res_" oAllOk [] (by decide)
      (Or.inr (by decide))).2.1

/-! ### C10: MP3 path derivation -/

/-- C10 counterexample: Python's `str.replace` replaces EVERY occurrence of
`'.mp4'`, not only the first one as the claim states: on a path containing
`'.mp4'` twice the code's result differs from the first-occurrence
replacement. -/
theorem C10_mp3_path_cex :
    pythonReplace "downloads/a.mp4.mp4" ".mp4" ".mp3" = "downloads/a.mp3.mp3" ∧
    replaceFirst "downloads/a.mp4.mp4" ".mp4" ".mp3" = "downloads/a.mp3.mp4" ∧
    pythonReplace "downloads/a.mp4.mp4" ".mp4" ".mp3" ≠
      replaceFirst "downloads/a.mp4.mp4" ".mp4" ".mp3" := by
  refine ⟨by decide, by decide, by decide⟩

/-- C10 amended: the MP3 path replaces EVERY occurrence of `'.mp4'` by
`'.mp3'`; for a downloaded path without `'.mp4'` the MP3 path equals the
raw path, the success-path cleanup removes the same path twice, the second
removal raises, and the run ends in the `except` branch with the error
reply — the double-removal error branch is reachable. -/
theorem C10_mp3_path_amended :
    ∀ (p : String) (yt : YT) (str : Option (List PyStream)) (s : PyStream)
      (o : Oracle) (disk : List String),
    ¬ (".mp4".data <:+: p.data) →
    yt.streams.find? (fun t => t.onlyAudio) = some s →
    o.aDownload = some p →
    sizeGateRejects s.filesize = false →
    o.aTranscode = true → o.aDeliver = true →
    pythonReplace p ".mp4" ".mp3" = p ∧
    (download_audio ⟨some yt, str⟩ o disk).replies = [Reply.errorProcessingAudio] ∧
    Event.removeFailed p ∈ (download_audio ⟨some yt, str⟩ o disk).trace ∧
    p ∉ (download_audio ⟨some yt, str⟩ o disk).disk ∧
    (download_audio ⟨some yt, str⟩ o disk).next = ConvState.URL := by
  intro p yt str s o disk hinf hfind hdl hgate htr hdel
  have hmp3 : pythonReplace p ".mp4" ".mp3" = p := pythonReplace_no_occurrence _ _ _ hinf
  rw [sizeGateRejects_eq, decide_eq_false_iff_not] at hgate
  refine ⟨hmp3, ?_, ?_, ?_, ?_⟩ <;>
    simp [download_audio, hfind, hdl, hgate, htr, hdel, hmp3, osRemove,
      List.mem_insert_self, List.mem_filter]

/-- C10 witness: the amended statement evaluated on a `.webm` download
path. -/
theorem C10_mp3_path_witness :
    pythonReplace "downloads/track.webm" ".mp4" ".mp3" = "downloads/track.webm" ∧
    (download_audio ⟨some ytAudioSmall, none⟩ oWebm []).replies = [Reply.errorProcessingAudio] ∧
    (download_audio ⟨some ytAudioSmall, none⟩ oWebm []).next = ConvState.URL := by
  have h := C10_mp3_path_amended "downloads/track.webm" ytAudioSmall none audioSmall oWebm []
    (by decide) (by decide) (by decide) (by rw [sizeGateRejects_eq]; decide)
    (by decide) (by decide)
  exact ⟨h.1, h.2.1, h.2.2.2.2⟩
